import Mathlib

/-!
# Verification of the smallsh process-execution core

A shallow embedding of `src/smallsh.c` (a small interactive shell):
the background-job registry (`addBgPid` / `removeBgPid`), the SIGTSTP
toggle handler (`catchSIGTSTP`), the status printer (`printStatus`),
the background reaper (`reapBackground`), the tokenizer loop of
`getInput` (`parseTokensAux`), and the fork/exec launcher
(`execCommand`, with the child-side setup split into `setupInput`,
`setupOutput`, `childExec`).

Machine-level effects are made explicit: file-descriptor bindings
become a `Stream` value per standard stream, `open` success is an
oracle in `Env`, the sequence of children collected by the
`waitpid(-1, ·, WNOHANG)` loop is passed to `reapBackground` as a
list, and the shell globals form `ShellState`.
-/

namespace Smallsh

/-- `MAXBGPIDS` from smallsh.c: capacity of the background-pid array. -/
def MAXBGPIDS : Nat := 1024

/-- The shell globals of smallsh.c: `backgroundOn`, the `bgPids` array
(together with `bgCount`, modelled as a list whose length is the count),
and the `status` bookkeeping triple. -/
structure ShellState where
  backgroundOn : Bool
  bgPids : List Int
  lastExitStatus : Nat
  lastTermSignal : Nat
  lastWasSignaled : Bool
deriving Repr, DecidableEq

/-- The global initial values of smallsh.c: background allowed, no
tracked pids, exit status 0. -/
def initialState : ShellState :=
  { backgroundOn := true
    bgPids := []
    lastExitStatus := 0
    lastTermSignal := 0
    lastWasSignaled := false }

/-- `addBgPid` from smallsh.c: append the pid if the array has room,
otherwise do nothing. -/
def addBgPid (l : List Int) (pid : Int) : List Int :=
  if l.length < MAXBGPIDS then l ++ [pid] else l

/-- `removeBgPid` from smallsh.c: find the first occurrence of `pid`,
overwrite it with the last element, and shrink the array by one;
if `pid` is absent the array is unchanged. -/
def removeBgPid (l : List Int) (pid : Int) : List Int :=
  if pid ∈ l then (l.set (l.indexOf pid) (l.getLastD 0)).dropLast else l

/-- `catchSIGTSTP` from smallsh.c: on each delivery, flip
`backgroundOn` and write the fixed notice for the mode being entered.
Returns the new flag value and the emitted message. -/
def catchSIGTSTP (backgroundOn : Bool) : Bool × String :=
  if backgroundOn then
    (false, "\nEntering foreground-only mode (& is now ignored)\n")
  else
    (true, "\nExiting foreground-only mode\n")

/-- The value of `backgroundOn` after `n` deliveries of SIGTSTP to
`catchSIGTSTP`, starting from `b`. -/
def togglePermission : Nat → Bool → Bool
  | 0, b => b
  | n + 1, b => (catchSIGTSTP (togglePermission n b)).1

/-- Decoded result of a `wait` operation: the child exited with a code,
or was terminated by a signal (the two shapes `WIFEXITED` /
`WIFSIGNALED` distinguish). -/
inductive ProcessOutcome where
  | exited (code : Nat)
  | signaled (sig : Nat)
deriving Repr, DecidableEq

/-- `printStatus` from smallsh.c: render the last foreground outcome
from the status triple. -/
def printStatus (s : ShellState) : String :=
  if s.lastWasSignaled then
    "terminated by signal " ++ toString s.lastTermSignal ++ "\n"
  else
    "exit value " ++ toString s.lastExitStatus ++ "\n"

/-- The outcome part of the line `reapBackground` prints for one
finished child (`exit value N` / `terminated by signal N`). -/
def waitOutcomeMsg : ProcessOutcome → String
  | .exited c => "exit value " ++ toString c ++ "\n"
  | .signaled g => "terminated by signal " ++ toString g ++ "\n"

/-- `reapBackground` from smallsh.c: the `waitpid(-1, ·, WNOHANG)` loop.
`finished` is the sequence of (pid, decoded status) pairs the kernel
hands back before returning 0 or -1. For each one the shell prints a
completion line and removes the pid from `bgPids`. Returns the new
state and the printed lines in order. -/
def reapBackground (s : ShellState) :
    List (Int × ProcessOutcome) → ShellState × List String
  | [] => (s, [])
  | (pid, out) :: rest =>
    let msg := "background pid " ++ toString pid ++ " is done: " ++
      waitOutcomeMsg out
    let s1 : ShellState := { s with bgPids := removeBgPid s.bgPids pid }
    let r := reapBackground s1 rest
    (r.1, msg :: r.2)

/-- Where a standard stream of the child points after the redirection
code ran: still the inherited terminal, an opened file, or `/dev/null`. -/
inductive Stream where
  | terminal
  | file (path : String)
  | nullDevice
deriving Repr, DecidableEq

/-- The bindings of the three standard streams of the child at the
point `execvp` is reached. -/
structure ChildStreams where
  stdinS : Stream
  stdoutS : Stream
  stderrS : Stream
deriving Repr, DecidableEq

/-- Signal disposition installed with `sigaction`: `SIG_DFL` or
`SIG_IGN` (smallsh children install no custom handler). -/
inductive Disposition where
  | dfl
  | ign
deriving Repr, DecidableEq

/-- The system-call oracle for one launch: whether `open` succeeds on a
given path for reading / writing, whether `execvp` finds the program,
and what the executed program's own termination looks like. -/
structure Env where
  openRead : String → Bool
  openWrite : String → Bool
  execOk : Bool
  execOutcome : ProcessOutcome

/-- Input redirection of the child (smallsh.c lines 284-304): an
explicit input file is opened read-only, with open failure fatal to
the child (`exit(1)` after naming the path); otherwise an effective
background child gets `/dev/null` when that opens, and a foreground
child keeps the terminal. -/
def setupInput (env : Env) (inFile : String)
    (background backgroundOn : Bool) : Except String Stream :=
  if inFile ≠ "" then
    if env.openRead inFile then .ok (.file inFile)
    else .error (inFile ++ ": cannot open input file\n")
  else if background && backgroundOn then
    if env.openRead "/dev/null" then .ok .nullDevice else .ok .terminal
  else .ok .terminal

/-- Output redirection of the child (smallsh.c lines 307-331): an
explicit output file is opened `O_WRONLY|O_CREAT|O_TRUNC`, with open
failure fatal to the child; otherwise an effective background child
sends both stdout and stderr to `/dev/null` when that opens. Returns
(stdout binding, stderr binding). -/
def setupOutput (env : Env) (outFile : String)
    (background backgroundOn : Bool) : Except String (Stream × Stream) :=
  if outFile ≠ "" then
    if env.openWrite outFile then .ok (.file outFile, .terminal)
    else .error (outFile ++ ": cannot open output file\n")
  else if background && backgroundOn then
    if env.openWrite "/dev/null" then .ok (.nullDevice, .nullDevice)
    else .ok (.terminal, .terminal)
  else .ok (.terminal, .terminal)

/-- How the child side of `execCommand` ends: the process image is
replaced with the given stream bindings, or the child printed `msg`
and called `exit(1)`. -/
inductive ChildExec where
  | execed (io : ChildStreams)
  | failed (msg : String)
deriving Repr, DecidableEq

/-- The redirection-then-exec part of the child (smallsh.c lines
283-341): input binding, then output binding, then `execvp`; the first
failure wins and carries its message. -/
def childExec (env : Env) (argv0 inFile outFile : String)
    (background backgroundOn : Bool) : ChildExec :=
  match setupInput env inFile background backgroundOn with
  | .error m => .failed m
  | .ok si =>
    match setupOutput env outFile background backgroundOn with
    | .error m => .failed m
    | .ok (so, se) =>
      if env.execOk then .execed ⟨si, so, se⟩
      else .failed (argv0 ++ ": no such file or directory\n")

/-- Everything the child does before/at `execvp` (smallsh.c lines
263-341): SIGTSTP is set to ignored unconditionally, SIGINT to default
for a foreground child and ignored for an effective background child,
then redirection and exec. -/
structure ChildResult where
  tstpDisp : Disposition
  intDisp : Disposition
  exec : ChildExec
deriving Repr, DecidableEq

/-- The child branch of `execCommand` in smallsh.c. -/
def childRun (env : Env) (argv0 inFile outFile : String)
    (background backgroundOn : Bool) : ChildResult :=
  { tstpDisp := .ign
    intDisp := if !background || !backgroundOn then .dfl else .ign
    exec := childExec env argv0 inFile outFile background backgroundOn }

/-- The termination outcome of the child as the parent's `waitpid`
sees it: each `exit(1)` failure path yields `Exited(1)`; a successful
exec yields whatever the program itself does. -/
def childOutcome (env : Env) (argv0 inFile outFile : String)
    (background backgroundOn : Bool) : ProcessOutcome :=
  match (childRun env argv0 inFile outFile background backgroundOn).exec with
  | .failed _ => .exited 1
  | .execed _ => env.execOutcome

/-- The parent's foreground bookkeeping (smallsh.c lines 363-373):
decode the wait status into the status triple. -/
def recordForeground (s : ShellState) : ProcessOutcome → ShellState
  | .exited c => { s with lastWasSignaled := false, lastExitStatus := c }
  | .signaled g => { s with lastWasSignaled := true, lastTermSignal := g }

/-- The parent branch of `execCommand` (smallsh.c lines 344-375),
given the pid `fork` returned: an effective background child is
registered and announced without waiting; otherwise the parent blocks
in `waitpid`, records the outcome, and reports a signal termination
immediately. Returns the new shell state and the lines the parent
prints. -/
def execCommand (env : Env) (s : ShellState) (argv0 inFile outFile : String)
    (background : Bool) (childPid : Int) : ShellState × List String :=
  if background && s.backgroundOn then
    ({ s with bgPids := addBgPid s.bgPids childPid },
      ["background pid is " ++ toString childPid ++ "\n"])
  else
    match childOutcome env argv0 inFile outFile background s.backgroundOn with
    | .exited c =>
      ({ s with lastWasSignaled := false, lastExitStatus := c }, [])
    | .signaled g =>
      ({ s with lastWasSignaled := true, lastTermSignal := g },
        ["terminated by signal " ++ toString g ++ "\n"])

/-- A parsed command line as `getInput` produces it: argv entries, the
input/output redirection paths (`""` when absent), and the
background-request flag. -/
structure CommandSpec where
  argv : List String
  inFile : String
  outFile : String
  background : Bool
deriving Repr, DecidableEq

/-- One dispatch of a non-built-in command by `main` (smallsh.c lines
443-446): compute `bg = background && backgroundOn` and call
`execCommand`. -/
def launch (env : Env) (s : ShellState) (cs : CommandSpec)
    (childPid : Int) : ShellState × List String :=
  execCommand env s (cs.argv.headD "") cs.inFile cs.outFile
    (cs.background && s.backgroundOn) childPid

/-- The token loop of `getInput` (smallsh.c lines 204-233), running on
the whitespace-delimited tokens of the (already `$$`-expanded) line:
`&` sets the background flag, `<` / `>` consume the following token as
the input / output path, everything else is appended to argv. -/
def parseTokensAux : List String → CommandSpec → CommandSpec
  | [], acc => acc
  | t :: rest, acc =>
    if t = "&" then parseTokensAux rest { acc with background := true }
    else if t = "<" then
      match rest with
      | [] => acc
      | f :: rest2 => parseTokensAux rest2 { acc with inFile := f }
    else if t = ">" then
      match rest with
      | [] => acc
      | f :: rest2 => parseTokensAux rest2 { acc with outFile := f }
    else parseTokensAux rest { acc with argv := acc.argv ++ [t] }

/-- `getInput` parsing of a tokenized line, from the initial values
`background = 0`, `inFile = ""`, `outFile = ""`, empty argv. -/
def parseTokens (toks : List String) : CommandSpec :=
  parseTokensAux toks { argv := [], inFile := "", outFile := "", background := false }

/-- One mutation of the background-pid registry. -/
inductive RegistryOp where
  | add (pid : Int)
  | remove (pid : Int)

/-- Apply one registry operation. -/
def applyOp (l : List Int) : RegistryOp → List Int
  | .add p => addBgPid l p
  | .remove p => removeBgPid l p

/-- Apply a sequence of registry operations, oldest first. -/
def applyOps (ops : List RegistryOp) (l : List Int) : List Int :=
  ops.foldl applyOp l

/-- Whether the child dies in the redirection stage: the input open
errors, or the output open errors (when both would, the child dies at
the input step, which comes first). -/
def redirOpenFails (env : Env) (inFile outFile : String)
    (background backgroundOn : Bool) : Bool :=
  (match setupInput env inFile background backgroundOn with
    | .error _ => true | .ok _ => false)
  || (match setupOutput env outFile background backgroundOn with
    | .error _ => true | .ok _ => false)

/-- Specification-side characterization of when the token scan of
`getInput` meets a standalone `&` token: it mirrors the scan
discipline — a token immediately consumed after `<` or `>` is a
redirection path, not scanned — without building a `CommandSpec`.
Used only to state the amended form of the background-flag claim. -/
def scanMeetsAmp : List String → Bool
  | [] => false
  | t :: rest =>
    if t = "&" then true
    else if t = "<" ∨ t = ">" then
      match rest with
      | [] => false
      | _ :: rest2 => scanMeetsAmp rest2
    else scanMeetsAmp rest

/-! ## Example inputs used by witnesses and counterexamples -/

/-- An oracle where every system call succeeds and the program exits 0. -/
def envAllOk : Env :=
  { openRead := fun _ => true
    openWrite := fun _ => true
    execOk := true
    execOutcome := .exited 0 }

/-- An oracle where every `open` for reading fails. -/
def envNoRead : Env :=
  { envAllOk with openRead := fun _ => false }

/-- `wc < nofile`: a foreground command whose input redirection will
fail under `envNoRead`. -/
def csBadIn : CommandSpec :=
  { argv := ["wc"], inFile := "nofile", outFile := "", background := false }

/-- `sleep &`: a background-requested command without redirection. -/
def csBg : CommandSpec :=
  { argv := ["sleep"], inFile := "", outFile := "", background := true }

/-- The shell state after one SIGTSTP: background permission off. -/
def fgOnlyState : ShellState := { initialState with backgroundOn := false }

/-! ## Helper lemmas -/

theorem catchSIGTSTP_fst (b : Bool) : (catchSIGTSTP b).1 = !b := by
  cases b <;> rfl

theorem applyOp_length {l : List Int} (h : l.length ≤ MAXBGPIDS)
    (op : RegistryOp) : (applyOp l op).length ≤ MAXBGPIDS := by
  cases op with
  | add p =>
    simp only [applyOp, addBgPid]
    split
    · simpa using ‹l.length < MAXBGPIDS›
    · exact h
  | remove p =>
    simp only [applyOp, removeBgPid]
    split
    · simp only [List.length_dropLast, List.length_set]
      omega
    · exact h

theorem applyOps_length_le (ops : List RegistryOp) :
    ∀ l : List Int, l.length ≤ MAXBGPIDS →
      (applyOps ops l).length ≤ MAXBGPIDS := by
  induction ops with
  | nil => intro l h; exact h
  | cons op rest ih =>
    intro l h
    exact ih (applyOp l op) (applyOp_length h op)

theorem recordForeground_bgPids (s : ShellState) (out : ProcessOutcome) :
    (recordForeground s out).bgPids = s.bgPids := by
  cases out <;> rfl

theorem reap_preserves_status (finished : List (Int × ProcessOutcome)) :
    ∀ s : ShellState,
      (reapBackground s finished).1.lastWasSignaled = s.lastWasSignaled
      ∧ (reapBackground s finished).1.lastExitStatus = s.lastExitStatus
      ∧ (reapBackground s finished).1.lastTermSignal = s.lastTermSignal := by
  induction finished with
  | nil => intro s; exact ⟨rfl, rfl, rfl⟩
  | cons po rest ih =>
    intro s
    obtain ⟨pid, out⟩ := po
    simpa [reapBackground] using ih { s with bgPids := removeBgPid s.bgPids pid }

theorem reap_messages_eq_map (finished : List (Int × ProcessOutcome)) :
    ∀ s : ShellState,
      (reapBackground s finished).2 = finished.map (fun po =>
        "background pid " ++ toString po.1 ++ " is done: " ++ waitOutcomeMsg po.2) := by
  induction finished with
  | nil => intro s; rfl
  | cons po rest ih =>
    intro s
    obtain ⟨pid, out⟩ := po
    simpa [reapBackground] using ih { s with bgPids := removeBgPid s.bgPids pid }

theorem execCommand_fg (env : Env) (s : ShellState)
    (argv0 inFile outFile : String) {background : Bool} (childPid : Int)
    (hbg : (background && s.backgroundOn) = false) :
    execCommand env s argv0 inFile outFile background childPid =
      (recordForeground s
        (childOutcome env argv0 inFile outFile background s.backgroundOn),
       match childOutcome env argv0 inFile outFile background s.backgroundOn with
       | .exited _ => []
       | .signaled g => ["terminated by signal " ++ toString g ++ "\n"]) := by
  unfold execCommand
  rw [hbg, if_neg Bool.false_ne_true]
  rcases childOutcome env argv0 inFile outFile background s.backgroundOn
    with c | g <;> rfl

theorem execCommand_bg (env : Env) (s : ShellState)
    (argv0 inFile outFile : String) {background : Bool} (childPid : Int)
    (hbg : (background && s.backgroundOn) = true) :
    execCommand env s argv0 inFile outFile background childPid =
      ({ s with bgPids := addBgPid s.bgPids childPid },
       ["background pid is " ++ toString childPid ++ "\n"]) := by
  unfold execCommand
  rw [hbg, if_pos rfl]

theorem childRun_exec (env : Env) (argv0 inFile outFile : String)
    (bg bOn : Bool) :
    (childRun env argv0 inFile outFile bg bOn).exec =
      childExec env argv0 inFile outFile bg bOn := rfl

theorem parseTokensAux_bg : ∀ (toks : List String) (acc : CommandSpec),
    (parseTokensAux toks acc).background =
      (acc.background || scanMeetsAmp toks) := by
  intro toks acc
  induction toks, acc using parseTokensAux.induct
  all_goals rw [parseTokensAux.eq_def, scanMeetsAmp.eq_def]
  all_goals simp_all

theorem parseTokensAux_argv_no_amp : ∀ (toks : List String) (acc : CommandSpec),
    "&" ∉ acc.argv → "&" ∉ (parseTokensAux toks acc).argv := by
  intro toks acc
  induction toks, acc using parseTokensAux.induct
  all_goals intro hacc
  all_goals rw [parseTokensAux.eq_def]
  all_goals try simp_all
  rename_i t rest acc h1 h2 h3 ih
  exact ih (fun h => h1 h.symm)

theorem setupInput_error {env : Env} {inFile : String} {bg bOn : Bool}
    {m : String} (h : setupInput env inFile bg bOn = .error m) :
    m = inFile ++ ": cannot open input file\n" := by
  unfold setupInput at h
  split at h
  · split at h <;> simp_all
  · split at h
    · split at h <;> simp_all
    · simp_all

theorem setupOutput_error {env : Env} {outFile : String} {bg bOn : Bool}
    {m : String} (h : setupOutput env outFile bg bOn = .error m) :
    m = outFile ++ ": cannot open output file\n" := by
  unfold setupOutput at h
  split at h
  · split at h <;> simp_all
  · split at h
    · split at h <;> simp_all
    · simp_all

/-! ## Claim theorems -/

/-- C4: for every spawned child, before `execvp` the stop signal
(SIGTSTP) is set to ignored unconditionally, and the interrupt signal
(SIGINT) is set to its default terminating disposition exactly when
the command runs in effective foreground mode and to ignored exactly
when it runs in effective background mode (`requested && perm`, with
`perm` the `backgroundOn` flag the child inherits). -/
theorem child_signal_dispositions (env : Env) (argv0 inFile outFile : String)
    (requested perm : Bool) :
    (childRun env argv0 inFile outFile (requested && perm) perm).tstpDisp
      = Disposition.ign
    ∧ (childRun env argv0 inFile outFile (requested && perm) perm).intDisp
      = (if requested && perm then Disposition.ign else Disposition.dfl) := by
  refine ⟨rfl, ?_⟩
  cases requested <;> cases perm <;> rfl

/-- C6: starting from the empty registry, no sequence of add/remove
operations pushes the size past the capacity `MAXBGPIDS = 1024`; an
add on a full registry changes nothing, and an add with remaining
capacity inserts the identifier. -/
theorem registry_capacity_invariant (ops : List RegistryOp)
    (l : List Int) (p : Int) :
    (applyOps ops []).length ≤ MAXBGPIDS
    ∧ (l.length = MAXBGPIDS → addBgPid l p = l)
    ∧ (l.length < MAXBGPIDS → p ∈ addBgPid l p) := by
  refine ⟨applyOps_length_le ops [] (by simp), ?_, ?_⟩
  · intro h
    simp [addBgPid, h]
  · intro h
    simp [addBgPid, h]

/-- Witness for C6 at concrete inputs: one add from empty stays within
capacity, an add on a full (all-zero) registry is the identity, and an
add on the empty registry inserts the pid. -/
theorem registry_capacity_invariant_witness :
    (applyOps [RegistryOp.add 3] []).length ≤ MAXBGPIDS
    ∧ addBgPid (List.replicate MAXBGPIDS 0) 5 = List.replicate MAXBGPIDS 0
    ∧ (5 : Int) ∈ addBgPid [] 5 := by
  obtain ⟨h1, h2, _⟩ :=
    registry_capacity_invariant [RegistryOp.add 3] (List.replicate MAXBGPIDS 0) 5
  refine ⟨h1, h2 (by simp), ?_⟩
  exact (registry_capacity_invariant [] [] 5).2.2 (by simp [MAXBGPIDS])

/-- C7: after `n` deliveries of SIGTSTP the background-permission flag
equals its original value when `n` is even and the inverted value when
`n` is odd, and each delivery emits exactly the fixed notice that
corresponds to the new mode (entering foreground-only when the flag
turns off, exiting when it turns on). -/
theorem sigtstp_toggle_parity (n : Nat) (b : Bool) :
    togglePermission n b = (if n % 2 = 0 then b else !b)
    ∧ ∀ c : Bool, (catchSIGTSTP c).2 =
        (if (catchSIGTSTP c).1 then "\nExiting foreground-only mode\n"
         else "\nEntering foreground-only mode (& is now ignored)\n") := by
  constructor
  · induction n with
    | zero => rfl
    | succ n ih =>
      simp only [togglePermission, ih, catchSIGTSTP_fst]
      rcases Nat.mod_two_eq_zero_or_one n with h | h
      · have h2 : (n + 1) % 2 = 1 := by omega
        simp [h, h2]
      · have h2 : (n + 1) % 2 = 0 := by omega
        simp [h, h2]
  · intro c
    cases c <;> rfl

/-- C8: a child launched in effective background mode with no explicit
input or output redirection path has, at the point `execvp` runs,
standard input bound to the null device and standard output and
standard error bound to the null device (given the null device opens
and the exec succeeds); SIGINT is ignored and SIGTSTP is ignored. -/
theorem background_null_device (env : Env) (argv0 : String)
    (requested perm : Bool) (heff : (requested && perm) = true)
    (hR : env.openRead "/dev/null" = true)
    (hW : env.openWrite "/dev/null" = true)
    (hexec : env.execOk = true) :
    childRun env argv0 "" "" (requested && perm) perm =
      { tstpDisp := .ign
        intDisp := .ign
        exec := .execed ⟨.nullDevice, .nullDevice, .nullDevice⟩ } := by
  obtain ⟨hr, hp⟩ : requested = true ∧ perm = true := by simpa using heff
  subst hr
  subst hp
  simp [childRun, childExec, setupInput, setupOutput, hR, hW, hexec]

/-- Witness for C8: under the all-succeeding oracle, a background
`sleep` with no redirection execs with all three streams on the null
device. -/
theorem background_null_device_witness :
    childRun envAllOk "sleep" "" "" (true && true) true =
      { tstpDisp := .ign
        intDisp := .ign
        exec := .execed ⟨.nullDevice, .nullDevice, .nullDevice⟩ } :=
  background_null_device envAllOk "sleep" true true rfl rfl rfl rfl

/-- C3: the effective background mode of a launch is
`backgroundRequested && backgroundOn`. When permission is off the
launch runs in the foreground — the parent blocks, records the child's
outcome, and does not insert it into the registry — and when the
effective mode is background the parent registers and announces the
pid without recording any outcome. -/
theorem effective_background_mode (env : Env) (s : ShellState)
    (cs : CommandSpec) (childPid : Int) :
    (s.backgroundOn = false →
      (launch env s cs childPid).1.bgPids = s.bgPids
      ∧ (launch env s cs childPid).1 =
          recordForeground s (childOutcome env (cs.argv.headD "")
            cs.inFile cs.outFile (cs.background && s.backgroundOn)
            s.backgroundOn))
    ∧ ((cs.background && s.backgroundOn) = true →
      (launch env s cs childPid).1.bgPids = addBgPid s.bgPids childPid
      ∧ (launch env s cs childPid).2 =
          ["background pid is " ++ toString childPid ++ "\n"]) := by
  constructor
  · intro hperm
    have hfg : ((cs.background && s.backgroundOn) && s.backgroundOn) = false := by
      simp [hperm]
    have key : (launch env s cs childPid).1 =
        recordForeground s (childOutcome env (cs.argv.headD "")
          cs.inFile cs.outFile (cs.background && s.backgroundOn)
          s.backgroundOn) := by
      unfold launch
      rw [execCommand_fg env s (cs.argv.headD "") cs.inFile cs.outFile
        childPid hfg]
    exact ⟨by rw [key, recordForeground_bgPids], key⟩
  · intro heff
    have hbg : ((cs.background && s.backgroundOn) && s.backgroundOn) = true := by
      cases hsb : s.backgroundOn <;> simp_all
    unfold launch
    rw [execCommand_bg env s (cs.argv.headD "") cs.inFile cs.outFile
      childPid hbg]
    exact ⟨rfl, rfl⟩

/-- Witness for C3: with permission off, a background-requested launch
leaves the registry unchanged; with permission on, the same launch
registers the child. -/
theorem effective_background_mode_witness :
    (launch envAllOk fgOnlyState csBg 9).1.bgPids = fgOnlyState.bgPids
    ∧ (launch envAllOk initialState csBg 9).1.bgPids =
        addBgPid initialState.bgPids 9 := by
  refine ⟨((effective_background_mode envAllOk fgOnlyState csBg 9).1 rfl).1, ?_⟩
  exact ((effective_background_mode envAllOk initialState csBg 9).2 rfl).1

/-- C5: a background completion processed by the reaper never changes
what `printStatus` reports; the background path of the launcher never
writes the status triple; and `printStatus` renders `exit value N`
after a foreground `Exited(N)` and `terminated by signal N` after a
foreground `Signaled(N)`. -/
theorem status_not_written_by_background (env : Env) (s : ShellState)
    (finished : List (Int × ProcessOutcome)) (cs : CommandSpec)
    (childPid : Int) (m n : Nat)
    (hbg : (cs.background && s.backgroundOn) = true) :
    printStatus (reapBackground s finished).1 = printStatus s
    ∧ printStatus (launch env s cs childPid).1 = printStatus s
    ∧ printStatus (recordForeground s (.exited m)) =
        "exit value " ++ toString m ++ "\n"
    ∧ printStatus (recordForeground s (.signaled n)) =
        "terminated by signal " ++ toString n ++ "\n" := by
  obtain ⟨h1, h2, h3⟩ := reap_preserves_status finished s
  have hbg2 : ((cs.background && s.backgroundOn) && s.backgroundOn) = true := by
    cases hsb : s.backgroundOn <;> simp_all
  refine ⟨?_, ?_, ?_, ?_⟩
  · simp [printStatus, h1, h2, h3]
  · unfold launch
    rw [execCommand_bg env s (cs.argv.headD "") cs.inFile cs.outFile
      childPid hbg2]
    rfl
  · simp [printStatus, recordForeground]
  · simp [printStatus, recordForeground]

/-- Witness for C5: reaping one finished background child and
launching one background command leave `printStatus` at its initial
rendering, and the two foreground renderings are as printed. -/
theorem status_not_written_by_background_witness :
    printStatus (reapBackground initialState
        [((5 : Int), ProcessOutcome.exited 0)]).1 = printStatus initialState
    ∧ printStatus (launch envAllOk initialState csBg 9).1 =
        printStatus initialState
    ∧ printStatus (recordForeground initialState (.exited 2)) =
        "exit value " ++ toString 2 ++ "\n"
    ∧ printStatus (recordForeground initialState (.signaled 15)) =
        "terminated by signal " ++ toString 15 ++ "\n" :=
  status_not_written_by_background envAllOk initialState
    [(5, .exited 0)] csBg 9 2 15 rfl

/-- C10: every child-side failure path (input open failure, output
open failure, exec failure) terminates the child with exit status
exactly 1, so a foreground launch that fails in any of these ways
records `Exited(1)` as the last foreground outcome. -/
theorem child_failure_exit_one (env : Env) (s : ShellState)
    (cs : CommandSpec) (childPid : Int) (m : String)
    (hfail : (childRun env (cs.argv.headD "") cs.inFile cs.outFile
        (cs.background && s.backgroundOn) s.backgroundOn).exec =
        .failed m)
    (hfg : (cs.background && s.backgroundOn) = false) :
    childOutcome env (cs.argv.headD "") cs.inFile cs.outFile
        (cs.background && s.backgroundOn) s.backgroundOn = .exited 1
    ∧ (launch env s cs childPid).1.lastWasSignaled = false
    ∧ (launch env s cs childPid).1.lastExitStatus = 1 := by
  have hout : childOutcome env (cs.argv.headD "") cs.inFile cs.outFile
      (cs.background && s.backgroundOn) s.backgroundOn = .exited 1 := by
    unfold childOutcome
    rw [hfail]
  have hfg2 : ((cs.background && s.backgroundOn) && s.backgroundOn) = false := by
    simp [hfg]
  have key : (launch env s cs childPid).1 =
      recordForeground s (ProcessOutcome.exited 1) := by
    unfold launch
    rw [execCommand_fg env s (cs.argv.headD "") cs.inFile cs.outFile
      childPid hfg2, hout]
  exact ⟨hout, by rw [key]; rfl, by rw [key]; rfl⟩

/-- Witness for C10: `wc < nofile` in the foreground under the
no-read oracle fails at the input open and leaves `Exited(1)`
recorded. -/
theorem child_failure_exit_one_witness :
    childOutcome envNoRead (csBadIn.argv.headD "") csBadIn.inFile
        csBadIn.outFile (csBadIn.background && initialState.backgroundOn)
        initialState.backgroundOn = .exited 1
    ∧ (launch envNoRead initialState csBadIn 7).1.lastWasSignaled = false
    ∧ (launch envNoRead initialState csBadIn 7).1.lastExitStatus = 1 :=
  child_failure_exit_one envNoRead initialState csBadIn 7
    "nofile: cannot open input file\n" rfl rfl

/-- C1 counterexample: a foreground launch whose input-redirection
path fails to open does change the interpreter's
`LastForegroundOutcome` — from the initial `exit value 0` to the
child's failure outcome `exit value 1` — refuting the claim that the
interpreter's own state is unchanged by such a launch. -/
theorem redirect_failure_counterexample :
    (launch envNoRead initialState csBadIn 7).1.lastExitStatus = 1
    ∧ initialState.lastExitStatus = 0
    ∧ printStatus (launch envNoRead initialState csBadIn 7).1 ≠
        printStatus initialState := by
  refine ⟨rfl, rfl, ?_⟩
  decide

/-- C1 (amended): a redirection-open failure is fatal to the child
only — the child dies with status 1 after printing a message naming
the offending path, and the interpreter continues; but the launch
still performs its normal parent-side bookkeeping: a foreground launch
records the child's `Exited(1)` outcome (leaving the registry alone),
and a background launch registers the pid (leaving the status alone). -/
theorem redirect_failure_child_only (env : Env) (s : ShellState)
    (cs : CommandSpec) (childPid : Int)
    (h : redirOpenFails env cs.inFile cs.outFile
        (cs.background && s.backgroundOn) s.backgroundOn = true) :
    (∃ m, childExec env (cs.argv.headD "") cs.inFile cs.outFile
        (cs.background && s.backgroundOn) s.backgroundOn = .failed m
      ∧ (m = cs.inFile ++ ": cannot open input file\n"
         ∨ m = cs.outFile ++ ": cannot open output file\n"))
    ∧ childOutcome env (cs.argv.headD "") cs.inFile cs.outFile
        (cs.background && s.backgroundOn) s.backgroundOn = .exited 1
    ∧ ((cs.background && s.backgroundOn) = false →
        (launch env s cs childPid).1.bgPids = s.bgPids
        ∧ (launch env s cs childPid).1.lastWasSignaled = false
        ∧ (launch env s cs childPid).1.lastExitStatus = 1)
    ∧ ((cs.background && s.backgroundOn) = true →
        (launch env s cs childPid).1.lastWasSignaled = s.lastWasSignaled
        ∧ (launch env s cs childPid).1.lastExitStatus = s.lastExitStatus
        ∧ (launch env s cs childPid).1.lastTermSignal = s.lastTermSignal
        ∧ (launch env s cs childPid).1.bgPids = addBgPid s.bgPids childPid) := by
  have hm : ∃ m, childExec env (cs.argv.headD "") cs.inFile cs.outFile
      (cs.background && s.backgroundOn) s.backgroundOn = .failed m
      ∧ (m = cs.inFile ++ ": cannot open input file\n"
         ∨ m = cs.outFile ++ ": cannot open output file\n") := by
    unfold redirOpenFails at h
    rcases hin : setupInput env cs.inFile (cs.background && s.backgroundOn)
        s.backgroundOn with m | si
    · refine ⟨m, ?_, Or.inl (setupInput_error hin)⟩
      unfold childExec
      rw [hin]
    · rcases hout : setupOutput env cs.outFile
          (cs.background && s.backgroundOn) s.backgroundOn with m | so
      · refine ⟨m, ?_, Or.inr (setupOutput_error hout)⟩
        unfold childExec
        rw [hin, hout]
      · rw [hin, hout] at h
        simp at h
  obtain ⟨m, hfailm, hshape⟩ := hm
  have hout1 : childOutcome env (cs.argv.headD "") cs.inFile cs.outFile
      (cs.background && s.backgroundOn) s.backgroundOn = .exited 1 := by
    unfold childOutcome
    rw [childRun_exec, hfailm]
  refine ⟨⟨m, hfailm, hshape⟩, hout1, ?_, ?_⟩
  · intro hfg
    have hfg2 : ((cs.background && s.backgroundOn) && s.backgroundOn) = false := by
      simp [hfg]
    have key : (launch env s cs childPid).1 =
        recordForeground s (ProcessOutcome.exited 1) := by
      unfold launch
      rw [execCommand_fg env s (cs.argv.headD "") cs.inFile cs.outFile
        childPid hfg2, hout1]
    exact ⟨by rw [key]; rfl, by rw [key]; rfl, by rw [key]; rfl⟩
  · intro hbg
    have hbg2 : ((cs.background && s.backgroundOn) && s.backgroundOn) = true := by
      cases hsb : s.backgroundOn <;> simp_all
    unfold launch
    rw [execCommand_bg env s (cs.argv.headD "") cs.inFile cs.outFile
      childPid hbg2]
    exact ⟨rfl, rfl, rfl, rfl⟩

/-- Witness for the amended C1: `wc < nofile` in the foreground under
the no-read oracle — the child fails naming `nofile`, exits 1, the
registry is untouched and `Exited(1)` is recorded. -/
theorem redirect_failure_child_only_witness :
    (∃ m, childExec envNoRead (csBadIn.argv.headD "") csBadIn.inFile
        csBadIn.outFile (csBadIn.background && initialState.backgroundOn)
        initialState.backgroundOn = .failed m
      ∧ (m = csBadIn.inFile ++ ": cannot open input file\n"
         ∨ m = csBadIn.outFile ++ ": cannot open output file\n"))
    ∧ childOutcome envNoRead (csBadIn.argv.headD "") csBadIn.inFile
        csBadIn.outFile (csBadIn.background && initialState.backgroundOn)
        initialState.backgroundOn = .exited 1
    ∧ ((csBadIn.background && initialState.backgroundOn) = false →
        (launch envNoRead initialState csBadIn 7).1.bgPids =
          initialState.bgPids
        ∧ (launch envNoRead initialState csBadIn 7).1.lastWasSignaled = false
        ∧ (launch envNoRead initialState csBadIn 7).1.lastExitStatus = 1)
    ∧ ((csBadIn.background && initialState.backgroundOn) = true →
        (launch envNoRead initialState csBadIn 7).1.lastWasSignaled =
          initialState.lastWasSignaled
        ∧ (launch envNoRead initialState csBadIn 7).1.lastExitStatus =
          initialState.lastExitStatus
        ∧ (launch envNoRead initialState csBadIn 7).1.lastTermSignal =
          initialState.lastTermSignal
        ∧ (launch envNoRead initialState csBadIn 7).1.bgPids =
          addBgPid initialState.bgPids 7) :=
  redirect_failure_child_only envNoRead initialState csBadIn 7 rfl

/-- C2 counterexample: with an empty registry, the reaper still
reports the completion of finished child 5, refuting the claim that a
finished child whose identifier is not in the registry has nothing
reported for it. -/
theorem reap_reports_untracked_counterexample :
    (5 : Int) ∉ initialState.bgPids
    ∧ (reapBackground initialState [((5 : Int), ProcessOutcome.exited 0)]).2 =
        ["background pid 5 is done: exit value 0\n"] := by
  refine ⟨?_, rfl⟩
  decide

/-- C2 (amended): the reaper reports identifier and outcome for every
finished child it collects — member of the registry or not — one line
per collected child; removal from the registry is a no-op for an
identifier that is not a member. -/
theorem reap_reports_all_collected (s : ShellState)
    (finished : List (Int × ProcessOutcome)) :
    (reapBackground s finished).2 = finished.map (fun po =>
      "background pid " ++ toString po.1 ++ " is done: " ++ waitOutcomeMsg po.2)
    ∧ (reapBackground s finished).2.length = finished.length
    ∧ (∀ pid : Int, pid ∉ s.bgPids → removeBgPid s.bgPids pid = s.bgPids) := by
  refine ⟨reap_messages_eq_map finished s, ?_, ?_⟩
  · rw [reap_messages_eq_map finished s]
    simp
  · intro pid hmem
    simp [removeBgPid, hmem]

/-- Witness for the amended C2: reaping finished child 5 with an empty
registry produces exactly its completion line, and removing the absent
pid 7 is a no-op. -/
theorem reap_reports_all_collected_witness :
    (reapBackground initialState [((5 : Int), ProcessOutcome.exited 0)]).2 =
      [((5 : Int), ProcessOutcome.exited 0)].map (fun po =>
        "background pid " ++ toString po.1 ++ " is done: " ++ waitOutcomeMsg po.2)
    ∧ (reapBackground initialState
        [((5 : Int), ProcessOutcome.exited 0)]).2.length =
        [((5 : Int), ProcessOutcome.exited 0)].length
    ∧ removeBgPid initialState.bgPids 7 = initialState.bgPids := by
  obtain ⟨h1, h2, h3⟩ :=
    reap_reports_all_collected initialState [(5, .exited 0)]
  exact ⟨h1, h2, h3 7 (by decide)⟩

/-- C9 counterexample: on the token list `echo & x` the trailing token
is `x`, yet the background flag is set, and the `&` token does not
appear in the argument vector — refuting both halves of the claim that
the flag is set iff the trailing token is `&` and that a non-trailing
`&` is kept as an ordinary argument. -/
theorem amp_position_counterexample :
    (parseTokens ["echo", "&", "x"]).background = true
    ∧ (["echo", "&", "x"] : List String).getLast? = some "x"
    ∧ (parseTokens ["echo", "&", "x"]).argv = ["echo", "x"] := by
  refine ⟨?_, rfl, ?_⟩ <;> decide

/-- C9 (amended): the background-request flag is set exactly when the
token scan — in which each `<` or `>` consumes the following token as
a redirection path — meets a token equal to `&`, in any position, not
only a trailing one; and an `&` token never becomes an argument-vector
entry. -/
theorem background_flag_from_any_amp (toks : List String) :
    (parseTokens toks).background = scanMeetsAmp toks
    ∧ "&" ∉ (parseTokens toks).argv := by
  constructor
  · have h := parseTokensAux_bg toks
      { argv := [], inFile := "", outFile := "", background := false }
    simpa [parseTokens] using h
  · exact parseTokensAux_argv_no_amp toks
      { argv := [], inFile := "", outFile := "", background := false }
      (by simp)

end Smallsh
